import Mathlib

/-!
# Verification of the ts-utils map library

Shallow embedding of the two collection variants of the repository:
`GuardedMap` (src/maps/guarded-map.ts), which keeps its entries in a
private ordered array, and the open variant `Map` (src/maps/map.ts),
which stores entries as properties on the collection object itself.

Modelling conventions:
* Element values are modelled by `JSVal`, a small universe of JavaScript
  values closed under the operations the source uses on them: truthiness,
  strict equality (a === b), loose equality (a == b) and the
  typeof-function test.  Numbers are modelled as integers; the numeric
  content of a string (for loose equality) is modelled for optionally
  signed decimal integer literals, other strings behave as NaN.
  Functions are modelled by an identity token: two function values are
  strictly (and loosely) equal exactly when they are the same reference,
  and a function compared loosely against a primitive is treated as
  unequal (the ToPrimitive detour through the function source text never
  produces a match for the inputs considered here).
* A thrown exception is modelled by `MRes.err e s` for mutating methods,
  where `s` is the state of the collection when the exception leaves the
  method; in this code base every throw happens before any mutation.
  Non-mutating methods that can throw return `Except`.
* The open variant keeps its entries as object properties, so a property
  read `this[key]` can also hit an inherited method of the class (and of
  Object.prototype).  `protoNames` lists those member names and
  `Map.getProp` performs the prototype-chain lookup.  Enumeration
  (for-in) is modelled as the insertion-ordered list of own properties;
  keys are treated as non-array-index strings, for which this matches
  the JavaScript enumeration order, and inherited methods are values for
  which `typeof` is function, which every enumeration loop of the source
  filters out.
* Property lists never hold two properties with one key (JavaScript
  object keys are unique); the definitions act on all lists, and the
  theorems hold for all of them.
-/

namespace Ts

/-- Error taxonomy of the library: `add` on a present key, `get`, `set`
or `remove` on an absent key, and `get` on a key that resolves to an
inherited method of the open variant. -/
inductive MapError where
  | keyConflict
  | keyNotFound
  | typeMismatch
deriving DecidableEq

/-- Result of a mutating method: either a normal return with the new
collection state, or a thrown error together with the collection state
at the moment the exception leaves the method. -/
inductive MRes (σ : Type) where
  | ok (s : σ)
  | err (e : MapError) (s : σ)
deriving DecidableEq

/-- The collection state after the call, whether or not it threw. -/
def MRes.state {σ : Type} : MRes σ → σ
  | .ok s => s
  | .err _ s => s

/-- True when the call returned without throwing. -/
def MRes.isOk {σ : Type} : MRes σ → Bool
  | .ok _ => true
  | .err _ _ => false

/-- JavaScript values stored in the collections. -/
inductive JSVal where
  | undefined
  | null
  | bool (b : Bool)
  | num (n : Int)
  | str (s : String)
  | func (id : Nat)
deriving DecidableEq

/-- JavaScript truthiness of a value. -/
def JSVal.truthy : JSVal → Bool
  | .undefined => false
  | .null => false
  | .bool b => b
  | .num n => !(n == 0)
  | .str s => !(s == "")
  | .func _ => true

/-- The typeof test used by the open variant to tell element data from
inherited methods. -/
def JSVal.isFunc : JSVal → Bool
  | .func _ => true
  | _ => false

/-- Digits of a decimal integer literal, or none when a non-digit
occurs. -/
def digitsToNat? (cs : List Char) : Option Nat :=
  cs.foldl
    (fun acc c =>
      match acc with
      | none => none
      | some n => if c.isDigit then some (n * 10 + (c.toNat - 48)) else none)
    (some 0)

/-- ToNumber on a string, restricted to optionally signed decimal
integer literals; the empty string converts to 0, anything else behaves
as NaN (`none`). -/
def strToInt? (s : String) : Option Int :=
  match s.toList with
  | [] => some 0
  | '-' :: rest =>
    if rest.isEmpty then none else (digitsToNat? rest).map (fun n => -(n : Int))
  | '+' :: rest =>
    if rest.isEmpty then none else (digitsToNat? rest).map (fun n => (n : Int))
  | cs => (digitsToNat? cs).map (fun n => (n : Int))

/-- ToNumber of a value; `none` models NaN. -/
def JSVal.toNumber? : JSVal → Option Int
  | .undefined => none
  | .null => some 0
  | .bool b => some (if b then 1 else 0)
  | .num n => some n
  | .str s => strToInt? s
  | .func _ => none

/-- JavaScript loose equality (a == b) on the modelled universe. -/
def looseEq (a b : JSVal) : Bool :=
  match a, b with
  | .undefined, .undefined => true
  | .undefined, .null => true
  | .null, .undefined => true
  | .null, .null => true
  | .undefined, _ => false
  | _, .undefined => false
  | .null, _ => false
  | _, .null => false
  | .str s, .str t => s == t
  | .bool x, .bool y => x == y
  | .func i, .func j => i == j
  | .func _, _ => false
  | _, .func _ => false
  | a, b =>
    match a.toNumber?, b.toNumber? with
    | some x, some y => x == y
    | _, _ => false

/-- One entry of the guarded variant (interface GuardedMapElement,
src/maps/maps-interfaces.ts). -/
structure GuardedMapElement where
  key : String
  value : JSVal
deriving DecidableEq

/-- The guarded variant: a private insertion-ordered array of entries
(src/maps/guarded-map.ts, field _elements). -/
structure GuardedMap where
  elements : List GuardedMapElement
deriving DecidableEq

/-- GuardedMap.size: length of the element array. -/
def GuardedMap.size (g : GuardedMap) : Nat :=
  g.elements.length

/-- GuardedMap.includesKey: findIndex on key equality is not -1.  The
source compares keys with ===; on strings == and === agree, so one
string equality models every key search of the class. -/
def GuardedMap.includesKey (g : GuardedMap) (key : String) : Bool :=
  g.elements.any (fun e => e.key == key)

/-- GuardedMap.add: throws KeyConflict when the key is already present,
otherwise pushes the new entry at the end of the array. -/
def GuardedMap.add (g : GuardedMap) (key : String) (value : JSVal) : MRes GuardedMap :=
  if g.elements.any (fun e => e.key == key) then .err .keyConflict g
  else .ok ⟨g.elements ++ [⟨key, value⟩]⟩

/-- GuardedMap.get: throws KeyNotFound when no entry has the key,
otherwise returns the value of the first entry with the key. -/
def GuardedMap.get (g : GuardedMap) (key : String) : Except MapError JSVal :=
  match g.elements.find? (fun e => e.key == key) with
  | some e => .ok e.value
  | none => .error .keyNotFound

/-- GuardedMap.remove: throws KeyNotFound when no entry has the key,
otherwise filters the entries with that key out, keeping the relative
order of the remaining entries. -/
def GuardedMap.remove (g : GuardedMap) (key : String) : MRes GuardedMap :=
  if (g.elements.find? (fun e => e.key == key)).isNone then .err .keyNotFound g
  else .ok ⟨g.elements.filter (fun e => !(e.key == key))⟩

/-- GuardedMap.set: throws KeyNotFound when no entry has the key,
otherwise rebuilds the array, updating the value of the matching entry
in place (the entry keeps its position). -/
def GuardedMap.set (g : GuardedMap) (key : String) (value : JSVal) : MRes GuardedMap :=
  if (g.elements.find? (fun e => e.key == key)).isNone then .err .keyNotFound g
  else .ok ⟨g.elements.map (fun e => if e.key == key then ⟨e.key, value⟩ else e)⟩

/-- GuardedMap.forEach: the visitor is called once per entry in array
order; the trace of (value, key) arguments it receives. -/
def GuardedMap.forEachTrace (g : GuardedMap) : List (JSVal × String) :=
  g.elements.map (fun e => (e.value, e.key))

/-- GuardedMap.toObjectsArray: the content of the returned array.  The
source returns the internal array itself, not a copy; the sharing is
modelled separately at the heap level below. -/
def GuardedMap.toObjectsArray (g : GuardedMap) : List GuardedMapElement :=
  g.elements

/-- GuardedMap.keysToArray. -/
def GuardedMap.keysToArray (g : GuardedMap) : List String :=
  g.elements.map (fun e => e.key)

/-- GuardedMap.valuesToArray. -/
def GuardedMap.valuesToArray (g : GuardedMap) : List JSVal :=
  g.elements.map (fun e => e.value)

/-- GuardedMap.includes: with a compare function, findIndex on the
compare predicate; without one, findIndex on loose equality
(e.value == value in the source). -/
def GuardedMap.includes (g : GuardedMap) (value : JSVal)
    (compare : Option (JSVal → JSVal → Bool)) : Bool :=
  match compare with
  | some c => g.elements.any (fun e => c e.value value)
  | none => g.elements.any (fun e => looseEq e.value value)

/-- GuardedMap.keyOf: key of the first entry matched by the compare
predicate, or by loose equality when compare is omitted; null (`none`)
when no entry matches. -/
def GuardedMap.keyOf (g : GuardedMap) (value : JSVal)
    (compare : Option (JSVal → JSVal → Bool)) : Option String :=
  match compare with
  | some c => (g.elements.find? (fun e => c e.value value)).map (fun e => e.key)
  | none => (g.elements.find? (fun e => looseEq e.value value)).map (fun e => e.key)

/-- GuardedMap.concat: for each entry of the other collection (observed
through its forEach enumeration), set when the key is present and
replace is requested, keep the existing entry when replace is not
requested, add when the key is absent.  An exception thrown by set or
add would propagate (none can, see the theorems). -/
def GuardedMap.concat : GuardedMap → List (String × JSVal) → Bool → MRes GuardedMap
  | g, [], _ => .ok g
  | g, kv :: rest, replace =>
    match
      (if g.includesKey kv.1 then
        (if replace then GuardedMap.set g kv.1 kv.2 else .ok g)
      else GuardedMap.add g kv.1 kv.2) with
    | .ok g2 => GuardedMap.concat g2 rest replace
    | .err e s => .err e s

/-- Loop body of GuardedMap.equals.  The source accumulates a local
check flag, but the flag never reaches the returned value (equals
returns the literal true), so only the control flow is observable: with
a compare function the loop evaluates this.get(key) for every entry of
the other collection, and get throws KeyNotFound when the key is absent
from the receiver; with compare omitted, the disjunction
(!compare || !compare(this.get(key), value)) short-circuits before the
get call, so nothing is evaluated. -/
def GuardedMap.equalsLoop : GuardedMap → List (String × JSVal) →
    Option (JSVal → JSVal → Bool) → Except MapError Unit
  | _, [], _ => .ok ()
  | g, kv :: rest, compare =>
    match compare with
    | none => GuardedMap.equalsLoop g rest none
    | some c =>
      match GuardedMap.get g kv.1 with
      | .error e => .error e
      | .ok _ => GuardedMap.equalsLoop g rest (some c)

/-- GuardedMap.equals: false when the sizes differ, otherwise the loop
over the other collection runs (possibly throwing through get) and the
method returns the literal true, ignoring the accumulated check flag.
The other collection is observed through size() and forEach; for both
variants size() equals the length of the forEach enumeration, so the
other collection is passed as its entry list. -/
def GuardedMap.equals (g : GuardedMap) (other : List (String × JSVal))
    (compare : Option (JSVal → JSVal → Bool)) : Except MapError Bool :=
  if g.size ≠ other.length then .ok false
  else (GuardedMap.equalsLoop g other compare).map (fun _ => true)

/-- Member names reachable through the prototype chain of an open
variant instance: the methods of the class plus the members every
object inherits from Object.prototype.  A property read this[key] on
one of these names yields a function when no own property shadows it. -/
def protoNames : List String :=
  ["add", "get", "remove", "size", "set", "forEach", "toObjectsArray",
   "keysToArray", "valuesToArray", "includesKey", "includes", "keyOf",
   "concat", "equals", "every", "some", "toJSON", "toBasicMap",
   "toGuardedMap", "constructor", "hasOwnProperty", "isPrototypeOf",
   "propertyIsEnumerable", "toLocaleString", "toString", "valueOf"]

/-- The open variant (class Map of src/maps/map.ts): entries are stored
as own properties of the instance, recorded here in property creation
order. -/
structure Map where
  props : List (String × JSVal)
deriving DecidableEq

/-- The property read this[key]: the own property when there is one,
otherwise the inherited method when the key names one, otherwise
undefined. -/
def Map.getProp (m : Map) (key : String) : JSVal :=
  match m.props.lookup key with
  | some v => v
  | none =>
    if protoNames.contains key then .func (protoNames.indexOf key) else .undefined

/-- The property write this[key] = v: updates the own property in place
when there is one (the property keeps its position), otherwise appends
a new own property. -/
def setOwn (props : List (String × JSVal)) (key : String) (v : JSVal) :
    List (String × JSVal) :=
  if props.any (fun kv => kv.1 == key) then
    props.map (fun kv => if kv.1 == key then (key, v) else kv)
  else props ++ [(key, v)]

/-- Map.add: throws KeyConflict when this[key] is truthy (a truthy
stored value, or an inherited method), otherwise assigns the property.
A stored falsy value does not guard the key: add overwrites it. -/
def Map.add (m : Map) (key : String) (value : JSVal) : MRes Map :=
  if (m.getProp key).truthy then .err .keyConflict m
  else .ok ⟨setOwn m.props key value⟩

/-- Map.get: throws KeyNotFound when this[key] is falsy (also for a
stored falsy value), throws the function-typed error when this[key] is
an inherited method, otherwise returns the property value. -/
def Map.get (m : Map) (key : String) : Except MapError JSVal :=
  if !(m.getProp key).truthy then .error .keyNotFound
  else if (m.getProp key).isFunc then .error .typeMismatch
  else .ok (m.getProp key)

/-- Map.remove: throws KeyNotFound when this[key] is falsy, otherwise
deletes the own property (a delete that resolved to an inherited method
removes nothing). -/
def Map.remove (m : Map) (key : String) : MRes Map :=
  if !(m.getProp key).truthy then .err .keyNotFound m
  else .ok ⟨m.props.filter (fun kv => !(kv.1 == key))⟩

/-- Map.set: throws KeyNotFound when this[key] is falsy, otherwise
assigns the property. -/
def Map.set (m : Map) (key : String) (value : JSVal) : MRes Map :=
  if !(m.getProp key).truthy then .err .keyNotFound m
  else .ok ⟨setOwn m.props key value⟩

/-- The entries every enumeration loop of the class visits: own
properties whose value is not a function, in property order. -/
def Map.entries (m : Map) : List (String × JSVal) :=
  m.props.filter (fun kv => !(kv.2.isFunc))

/-- Map.size: count of the enumerated non-function properties. -/
def Map.size (m : Map) : Nat :=
  (Map.entries m).length

/-- Map.includesKey: truthiness of this[key]; true for an inherited
method name, false for a stored falsy value. -/
def Map.includesKey (m : Map) (key : String) : Bool :=
  (m.getProp key).truthy

/-- Map.includes: per enumerated entry, with a compare function the
source tests compare first and falls back to strict equality, without
one it tests strict equality (mapEl === value). -/
def Map.includes (m : Map) (value : JSVal)
    (compare : Option (JSVal → JSVal → Bool)) : Bool :=
  (Map.entries m).any
    (fun kv =>
      match compare with
      | some c => c kv.2 value || kv.2 == value
      | none => kv.2 == value)

/-- Map.keyOf: key of the first enumerated entry matched as in
includes, null (`none`) when no entry matches. -/
def Map.keyOf (m : Map) (value : JSVal)
    (compare : Option (JSVal → JSVal → Bool)) : Option String :=
  ((Map.entries m).find?
    (fun kv =>
      match compare with
      | some c => c kv.2 value || kv.2 == value
      | none => kv.2 == value)).map (fun kv => kv.1)

/-- Map.concat: for each entry of the other collection the source runs
this[key] = replace ? value : this[key].  With replace the property
becomes the other value; without it the property is assigned its own
current read, which for an absent key is undefined, creating an
enumerable own property holding undefined. -/
def Map.concat (m : Map) (other : List (String × JSVal)) (replace : Bool) : Map :=
  other.foldl
    (fun acc kv => ⟨setOwn acc.props kv.1 (if replace then kv.2 else acc.getProp kv.1)⟩)
    m

/-- Loop body of Map.equals: the check flag is cleared when this[key]
is falsy; then, when compare is omitted, the disjunction
(!compare || ...) is true and the flag is cleared unconditionally; with
a compare function the flag is cleared unless both compare and strict
equality accept the pair.  Property reads never throw, so the loop
always completes. -/
def Map.equalsCheck : Map → List (String × JSVal) →
    Option (JSVal → JSVal → Bool) → Bool → Bool
  | _, [], _, check => check
  | m, kv :: rest, compare, check =>
    let check1 := if !(m.getProp kv.1).truthy then false else check
    let check2 :=
      match compare with
      | none => false
      | some c =>
        if !(c (m.getProp kv.1) kv.2) then false
        else if !(m.getProp kv.1 == kv.2) then false
        else check1
    Map.equalsCheck m rest compare check2

/-- Map.equals: false when the sizes differ, otherwise the accumulated
check flag. -/
def Map.equals (m : Map) (other : List (String × JSVal))
    (compare : Option (JSVal → JSVal → Bool)) : Bool :=
  if Map.size m ≠ other.length then false
  else Map.equalsCheck m other compare true

/-- Folding Map.add over a list of entries, propagating the first
thrown error: the body of the forEach loop in GuardedMap.toMap. -/
def Map.addAll : Map → List (String × JSVal) → Except MapError Map
  | m, [] => .ok m
  | m, kv :: rest =>
    match Map.add m kv.1 kv.2 with
    | .ok m2 => Map.addAll m2 rest
    | .err e _ => .error e

/-- Folding GuardedMap.add over a list of entries, propagating the
first thrown error: the body of the forEach loop in Map.toGuardedMap. -/
def GuardedMap.addAll : GuardedMap → List (String × JSVal) → Except MapError GuardedMap
  | g, [] => .ok g
  | g, kv :: rest =>
    match GuardedMap.add g kv.1 kv.2 with
    | .ok g2 => GuardedMap.addAll g2 rest
    | .err e _ => .error e

/-- GuardedMap.toMap: a fresh open-variant instance, returned directly
when the guarded map is empty, otherwise filled by add for each entry
in order; an add that throws (a key naming an inherited member of the
open variant) propagates. -/
def GuardedMap.toMap (g : GuardedMap) : Except MapError Map :=
  if g.size = 0 then .ok ⟨[]⟩
  else Map.addAll ⟨[]⟩ (g.elements.map (fun e => (e.key, e.value)))

/-- Map.toGuardedMap: a fresh guarded instance, returned directly when
the map is empty, otherwise filled by add for each enumerated entry in
order. -/
def Map.toGuardedMap (m : Map) : Except MapError GuardedMap :=
  if Map.size m = 0 then .ok ⟨[]⟩
  else GuardedMap.addAll ⟨[]⟩ (Map.entries m)

/-- A heap of arrays, for the observations where the identity of the
internal element array matters; addresses are indices into the store. -/
structure JSHeap where
  arrays : List (List GuardedMapElement)
deriving DecidableEq

/-- The array stored at an address. -/
def JSHeap.arrAt (h : JSHeap) (a : Nat) : List GuardedMapElement :=
  h.arrays.getD a []

/-- Array.prototype.push on the array at an address. -/
def JSHeap.pushAt (h : JSHeap) (a : Nat) (e : GuardedMapElement) : JSHeap :=
  ⟨h.arrays.set a (h.arrAt a ++ [e])⟩

/-- A guarded map whose _elements field is a reference into the heap. -/
structure GMapRef where
  elemsAddr : Nat
deriving DecidableEq

/-- GuardedMap.toObjectsArray at the heap level: the source returns
this._elements itself (src/maps/guarded-map.ts line 130), so the caller
receives the address of the live internal array, not of a copy. -/
def GMapRef.toObjectsArrayLive (g : GMapRef) : Nat :=
  g.elemsAddr

/-- GuardedMap.size at the heap level. -/
def GMapRef.sizeLive (g : GMapRef) (h : JSHeap) : Nat :=
  (h.arrAt g.elemsAddr).length

/-! ## Helper lemmas about property lists and element arrays -/

theorem lookup_none_iff_forall {props : List (String × JSVal)} {k : String} :
    props.lookup k = none ↔ ∀ kv ∈ props, kv.1 ≠ k := by
  induction props with
  | nil => simp [List.lookup]
  | cons kv t ih =>
    obtain ⟨a, b⟩ := kv
    by_cases hak : k = a
    · subst hak
      simp [List.lookup_cons]
    · have hb : (k == a) = false := beq_eq_false_iff_ne.mpr hak
      simp [List.lookup_cons, hb, ih, Ne.symm hak]

theorem any_key_eq_false_iff {props : List (String × JSVal)} {k : String} :
    props.any (fun kv => kv.1 == k) = false ↔ ∀ kv ∈ props, kv.1 ≠ k := by
  simp [List.any_eq_false]

theorem lookup_cons_self {a : String} {b : JSVal} {t : List (String × JSVal)} :
    List.lookup a ((a, b) :: t) = some b := by
  simp [List.lookup_cons]

theorem lookup_cons_ne {k a : String} {b : JSVal} {t : List (String × JSVal)}
    (h : k ≠ a) : List.lookup k ((a, b) :: t) = List.lookup k t := by
  have hb : (k == a) = false := beq_eq_false_iff_ne.mpr h
  simp [List.lookup_cons, hb]

theorem lookup_map_update {props : List (String × JSVal)} {k : String} {v : JSVal} :
    (props.map (fun kv => if kv.1 == k then (k, v) else kv)).lookup k
      = (props.lookup k).map (fun _ => v) := by
  induction props with
  | nil => simp [List.lookup]
  | cons kv t ih =>
    obtain ⟨a, b⟩ := kv
    by_cases hak : a = k
    · subst hak
      simp [lookup_cons_self]
    · have hb : (a == k) = false := beq_eq_false_iff_ne.mpr hak
      simp only [List.map_cons, hb, Bool.false_eq_true, if_false,
        lookup_cons_ne (Ne.symm hak)]
      exact ih

theorem lookup_append_left_none {l₁ l₂ : List (String × JSVal)} {k : String}
    (h : l₁.lookup k = none) : (l₁ ++ l₂).lookup k = l₂.lookup k := by
  induction l₁ with
  | nil => simp
  | cons kv t ih =>
    obtain ⟨a, b⟩ := kv
    by_cases hak : k = a
    · subst hak
      rw [lookup_cons_self] at h
      cases h
    · rw [lookup_cons_ne hak] at h
      rw [List.cons_append, lookup_cons_ne hak]
      exact ih h

theorem lookup_setOwn_self {props : List (String × JSVal)} {k : String} {v : JSVal} :
    (setOwn props k v).lookup k = some v := by
  unfold setOwn
  by_cases h : props.any (fun kv => kv.1 == k)
  · rw [if_pos h, lookup_map_update]
    rcases hl : props.lookup k with _ | w
    · rw [lookup_none_iff_forall] at hl
      rw [← any_key_eq_false_iff] at hl
      rw [h] at hl
      cases hl
    · rfl
  · rw [if_neg h]
    have hn : props.lookup k = none := by
      rw [lookup_none_iff_forall]
      exact any_key_eq_false_iff.mp (Bool.eq_false_iff.mpr h)
    rw [lookup_append_left_none hn]
    simp [List.lookup_cons]

theorem getProp_setOwn_self {props : List (String × JSVal)} {k : String} {v : JSVal} :
    Map.getProp ⟨setOwn props k v⟩ k = v := by
  unfold Map.getProp
  rw [lookup_setOwn_self]

theorem lookup_filter_not {props : List (String × JSVal)} {k : String} :
    (props.filter (fun kv => !(kv.1 == k))).lookup k = none := by
  rw [lookup_none_iff_forall]
  intro kv hkv
  have := (List.mem_filter.mp hkv).2
  simpa using this

theorem find?_filter_not {l : List GuardedMapElement} {k : String} :
    (l.filter (fun e => !(e.key == k))).find? (fun e => e.key == k) = none := by
  rw [List.find?_eq_none]
  intro e he
  have := (List.mem_filter.mp he).2
  simpa using this

theorem map_mk_eta (l : List GuardedMapElement) :
    l.map (fun e => (⟨e.key, e.value⟩ : GuardedMapElement)) = l := by
  induction l with
  | nil => rfl
  | cons e t ih => cases e; simp [ih]

theorem looseEq_refl (a : JSVal) : looseEq a a = true := by
  cases a <;> simp [looseEq, JSVal.toNumber?]

theorem equalsLoop_none (g : GuardedMap) (l : List (String × JSVal)) :
    GuardedMap.equalsLoop g l none = Except.ok () := by
  induction l with
  | nil => rfl
  | cons kv rest ih => simpa [GuardedMap.equalsLoop] using ih

theorem equalsCheck_none_false (m : Map) (l : List (String × JSVal)) :
    Map.equalsCheck m l none false = false := by
  induction l with
  | nil => rfl
  | cons kv rest ih => simpa [Map.equalsCheck] using ih

/-! ## Claims -/

/-- Claim C1, amended.  For every GuardedMap and every key reported
absent by includesKey, includesKey is false before add and true after a
successful add, and get returns the added value, for every value of the
element type.  For the open variant the same holds when includesKey is
false beforehand (no truthy stored value under the key and the key does
not name an inherited member) and the added value is a truthy
non-function value; for a falsy value the presence check of the open
variant cannot see the stored entry, which is the documented
falsy-value defect refuted in the counterexample. -/
theorem c1_amended :
    (∀ (g : GuardedMap) (k : String) (v : JSVal),
      GuardedMap.includesKey g k = false →
        (GuardedMap.add g k v).isOk = true
        ∧ GuardedMap.includesKey (MRes.state (GuardedMap.add g k v)) k = true
        ∧ GuardedMap.get (MRes.state (GuardedMap.add g k v)) k = Except.ok v)
    ∧ (∀ (m : Map) (k : String) (v : JSVal),
      Map.includesKey m k = false → JSVal.truthy v = true →
      JSVal.isFunc v = false →
        (Map.add m k v).isOk = true
        ∧ Map.includesKey (MRes.state (Map.add m k v)) k = true
        ∧ Map.get (MRes.state (Map.add m k v)) k = Except.ok v) := by
  constructor
  · intro g k v h
    have hany : g.elements.any (fun e => e.key == k) = false := h
    have hadd : GuardedMap.add g k v = .ok ⟨g.elements ++ [⟨k, v⟩]⟩ := by
      unfold GuardedMap.add
      rw [hany]
      simp
    refine ⟨by rw [hadd]; rfl, ?_, ?_⟩
    · rw [hadd]
      show (g.elements ++ [(⟨k, v⟩ : GuardedMapElement)]).any (fun e => e.key == k) = true
      simp [List.any_append]
    · rw [hadd]
      show GuardedMap.get ⟨g.elements ++ [⟨k, v⟩]⟩ k = Except.ok v
      unfold GuardedMap.get
      have hfind : g.elements.find? (fun e => e.key == k) = none := by
        rw [List.find?_eq_none]
        intro e he
        have := List.any_eq_false.mp hany e he
        simpa using this
      rw [List.find?_append, hfind]
      simp
  · intro m k v h hv hf
    have hadd : Map.add m k v = .ok ⟨setOwn m.props k v⟩ := by
      unfold Map.add
      unfold Map.includesKey at h
      rw [h]
      simp
    have hget : Map.getProp ⟨setOwn m.props k v⟩ k = v := getProp_setOwn_self
    refine ⟨by rw [hadd]; rfl, ?_, ?_⟩
    · rw [hadd]
      show Map.includesKey ⟨setOwn m.props k v⟩ k = true
      unfold Map.includesKey
      rw [hget, hv]
    · rw [hadd]
      show Map.get ⟨setOwn m.props k v⟩ k = Except.ok v
      unfold Map.get
      rw [hget, hv, hf]
      simp

/-- Witness for C1 at concrete inputs: adding under the fresh key a to
two empty collections and reading it back. -/
theorem c1_witness :
    GuardedMap.get (MRes.state (GuardedMap.add ⟨[]⟩ "a" (JSVal.num 7))) "a"
      = Except.ok (JSVal.num 7)
    ∧ Map.get (MRes.state (Map.add ⟨[]⟩ "a" (JSVal.num 7))) "a"
      = Except.ok (JSVal.num 7) :=
  ⟨(c1_amended.1 ⟨[]⟩ "a" (JSVal.num 7) (by decide)).2.2,
   (c1_amended.2 ⟨[]⟩ "a" (JSVal.num 7) (by decide) (by decide) (by decide)).2.2⟩

/-- Counterexample for C1 as stated: on the open variant, after adding
the falsy value 0 under the fresh key x, includesKey still reports
false and get throws KeyNotFound instead of returning the value. -/
theorem c1_counterexample :
    Map.includesKey ⟨[]⟩ "x" = false
    ∧ Map.add ⟨[]⟩ "x" (JSVal.num 0) = MRes.ok ⟨[("x", JSVal.num 0)]⟩
    ∧ Map.includesKey ⟨[("x", JSVal.num 0)]⟩ "x" = false
    ∧ Map.get ⟨[("x", JSVal.num 0)]⟩ "x" = Except.error MapError.keyNotFound :=
  ⟨by decide, rfl, rfl, rfl⟩

/-- Claim C3, amended.  add on a present key fails with KeyConflict and
leaves the collection unchanged: for the guarded variant always, for
the open variant whenever the presence check sees the key (includesKey
true, that is a truthy stored value or an inherited member name).  When
the stored value is falsy, the open variant instead succeeds and
overwrites it, as the counterexample shows. -/
theorem c3_amended :
    (∀ (g : GuardedMap) (k : String) (v : JSVal),
      GuardedMap.includesKey g k = true →
        GuardedMap.add g k v = MRes.err MapError.keyConflict g)
    ∧ (∀ (m : Map) (k : String) (v : JSVal),
      Map.includesKey m k = true →
        Map.add m k v = MRes.err MapError.keyConflict m) := by
  constructor
  · intro g k v h
    unfold GuardedMap.add
    rw [show g.elements.any (fun e => e.key == k) = true from h]
    simp
  · intro m k v h
    unfold Map.add
    unfold Map.includesKey at h
    rw [h]
    simp

/-- Witness for C3 at concrete inputs: adding under the occupied key a
fails with KeyConflict in both variants and the states are returned
untouched. -/
theorem c3_witness :
    GuardedMap.add ⟨[⟨"a", JSVal.num 1⟩]⟩ "a" (JSVal.num 2)
      = MRes.err MapError.keyConflict ⟨[⟨"a", JSVal.num 1⟩]⟩
    ∧ Map.add ⟨[("a", JSVal.num 1)]⟩ "a" (JSVal.num 2)
      = MRes.err MapError.keyConflict ⟨[("a", JSVal.num 1)]⟩ :=
  ⟨c3_amended.1 ⟨[⟨"a", JSVal.num 1⟩]⟩ "a" (JSVal.num 2) (by decide),
   c3_amended.2 ⟨[("a", JSVal.num 1)]⟩ "a" (JSVal.num 2) (by decide)⟩

/-- Counterexample for C3 as stated: the open variant holds the entry
x with the falsy stored value 0, yet add succeeds and replaces the
value instead of failing with KeyConflict and leaving it unchanged. -/
theorem c3_counterexample :
    Map.add ⟨[("x", JSVal.num 0)]⟩ "x" (JSVal.num 5)
      = MRes.ok ⟨[("x", JSVal.num 5)]⟩ := rfl

/-- Claim C9.  On the open variant, equals with the compare argument
omitted returns false whenever the sizes agree and the other collection
is non-empty: the loop clears the check flag on every visited entry
because the disjunction on the missing compare function is taken, so no
fallback to identity comparison happens. -/
theorem c9_equals_no_compare (m : Map) (other : List (String × JSVal))
    (hsize : Map.size m = other.length) (hne : other ≠ []) :
    Map.equals m other none = false := by
  unfold Map.equals
  rw [if_neg (by simp [hsize])]
  cases other with
  | nil => exact absurd rfl hne
  | cons kv rest =>
    show Map.equalsCheck m (kv :: rest) none true = false
    unfold Map.equalsCheck
    exact equalsCheck_none_false m rest

/-- Witness for C9: two open-variant collections holding the identical
single entry a compare as not equal when compare is omitted. -/
theorem c9_witness :
    Map.equals ⟨[("a", JSVal.num 1)]⟩ [("a", JSVal.num 1)] none = false :=
  c9_equals_no_compare ⟨[("a", JSVal.num 1)]⟩ [("a", JSVal.num 1)] rfl
    (by simp)

/-- Claim C10.  Without a compare function the guarded variant matches
values by loose equality while the open variant matches by strict
equality: every strict match of the open variant is also a loose match
of the guarded variant holding the same entries, and on the shared
entry a maps to the number 1 the two variants disagree about the
searched string value 1, both for includes and for keyOf. -/
theorem c10_loose_vs_strict :
    (∀ (es : List GuardedMapElement) (v : JSVal),
      Map.includes ⟨es.map (fun e => (e.key, e.value))⟩ v none = true →
      GuardedMap.includes ⟨es⟩ v none = true)
    ∧ GuardedMap.includes ⟨[⟨"a", JSVal.num 1⟩]⟩ (JSVal.str "1") none = true
    ∧ Map.includes ⟨[("a", JSVal.num 1)]⟩ (JSVal.str "1") none = false
    ∧ GuardedMap.keyOf ⟨[⟨"a", JSVal.num 1⟩]⟩ (JSVal.str "1") none = some "a"
    ∧ Map.keyOf ⟨[("a", JSVal.num 1)]⟩ (JSVal.str "1") none = none := by
  refine ⟨?_, rfl, rfl, rfl, rfl⟩
  intro es v h
  unfold Map.includes Map.entries at h
  unfold GuardedMap.includes
  rw [List.any_eq_true] at h
  rw [List.any_eq_true]
  obtain ⟨kv, hmem, heq⟩ := h
  have hmem2 : kv ∈ es.map (fun e => (e.key, e.value)) :=
    (List.mem_filter.mp hmem).1
  obtain ⟨e, he, hekv⟩ := List.mem_map.mp hmem2
  refine ⟨e, he, ?_⟩
  have hv : kv.2 = v := beq_iff_eq.mp heq
  have hev : e.value = kv.2 := by rw [← hekv]
  rw [hev, hv]
  exact looseEq_refl v

/-- Witness for C10: a strict match found by the open variant is also
found loosely by the guarded variant on the same single entry. -/
theorem c10_witness :
    GuardedMap.includes ⟨[⟨"b", JSVal.num 2⟩]⟩ (JSVal.num 2) none = true :=
  c10_loose_vs_strict.1 [⟨"b", JSVal.num 2⟩] (JSVal.num 2) (by decide)

/-- Claim C2, evaluated at failing inputs.  equals does not return
true iff sizes agree and every entry of the other collection matches:
the guarded variant returns the literal true for two same-size
collections whose values differ, and the open variant returns false
for two collections holding the identical entry when compare is
omitted, because no identity fallback runs. -/
theorem c2_bug_eval :
    GuardedMap.equals ⟨[⟨"a", JSVal.num 1⟩]⟩ [("a", JSVal.num 2)] none
      = Except.ok true
    ∧ Map.equals ⟨[("a", JSVal.num 1)]⟩ [("a", JSVal.num 1)] none = false :=
  ⟨rfl, rfl⟩

/-- Claim C4, evaluated at a failing input.  Open-variant concat with
replace false assigns the property its own current read instead of the
other collection's value: merging the entry a maps to 1 into an empty
collection creates an own property holding undefined, so the key is
counted by size but get fails and the merged value 1 is lost. -/
theorem c4_bug_eval :
    Map.concat ⟨[]⟩ [("a", JSVal.num 1)] false = ⟨[("a", JSVal.undefined)]⟩
    ∧ Map.get (Map.concat ⟨[]⟩ [("a", JSVal.num 1)] false) "a"
      = Except.error MapError.keyNotFound
    ∧ Map.size (Map.concat ⟨[]⟩ [("a", JSVal.num 1)] false) = 1 :=
  ⟨rfl, rfl, rfl⟩

/-- Claim C5, evaluated at a failing input.  The guarded variant's
toObjectsArray returns the live internal array, not an independent
copy: with the element array of the one-entry collection stored at heap
address 0, toObjectsArray returns address 0 itself, and pushing an
object onto the returned array grows the source collection's size from
1 to 2. -/
theorem c5_bug_eval :
    GMapRef.sizeLive ⟨0⟩ ⟨[[⟨"a", JSVal.num 1⟩]]⟩ = 1
    ∧ GMapRef.toObjectsArrayLive ⟨0⟩ = 0
    ∧ GMapRef.sizeLive ⟨0⟩
        (JSHeap.pushAt ⟨[[⟨"a", JSVal.num 1⟩]]⟩ (GMapRef.toObjectsArrayLive ⟨0⟩)
          ⟨"b", JSVal.num 2⟩) = 2 :=
  ⟨rfl, rfl, rfl⟩

/-- Claim C6.  The guarded variant's observation operations all present
the entries in the order of the internal array, and that order is
insertion order and is stable: a successful add appends the new key at
the end, set never changes the key sequence (whether it succeeds or
throws), and remove only drops the removed key, keeping the remaining
entries in their relative order (also when it throws, since then
nothing matches the filter). -/
theorem c6_insertion_order :
    (∀ g : GuardedMap,
      GuardedMap.keysToArray g = (GuardedMap.toObjectsArray g).map (fun e => e.key)
      ∧ GuardedMap.valuesToArray g = (GuardedMap.toObjectsArray g).map (fun e => e.value)
      ∧ GuardedMap.forEachTrace g
        = (GuardedMap.toObjectsArray g).map (fun e => (e.value, e.key)))
    ∧ (∀ (g : GuardedMap) (k : String) (v : JSVal),
      GuardedMap.keysToArray (MRes.state (GuardedMap.add g k v))
        = if GuardedMap.includesKey g k then GuardedMap.keysToArray g
          else GuardedMap.keysToArray g ++ [k])
    ∧ (∀ (g : GuardedMap) (k : String) (v : JSVal),
      GuardedMap.keysToArray (MRes.state (GuardedMap.set g k v))
        = GuardedMap.keysToArray g)
    ∧ (∀ (g : GuardedMap) (k : String),
      GuardedMap.toObjectsArray (MRes.state (GuardedMap.remove g k))
        = (GuardedMap.toObjectsArray g).filter (fun e => !(e.key == k))) := by
  refine ⟨fun g => ⟨rfl, rfl, rfl⟩, ?_, ?_, ?_⟩
  · intro g k v
    unfold GuardedMap.includesKey GuardedMap.add
    by_cases h : g.elements.any (fun e => e.key == k)
    · rw [h]
      simp [MRes.state]
    · rw [Bool.eq_false_iff.mpr h]
      simp only [Bool.false_eq_true, if_false, MRes.state]
      unfold GuardedMap.keysToArray
      simp
  · intro g k v
    unfold GuardedMap.set
    by_cases h : (g.elements.find? (fun e => e.key == k)).isNone
    · rw [if_pos h]
      rfl
    · rw [if_neg h]
      unfold GuardedMap.keysToArray MRes.state
      rw [List.map_map]
      apply List.map_congr_left
      intro e _
      by_cases hek : e.key = k <;> simp [hek]
  · intro g k
    unfold GuardedMap.remove
    by_cases h : (g.elements.find? (fun e => e.key == k)).isNone
    · rw [if_pos h]
      unfold GuardedMap.toObjectsArray MRes.state
      rw [eq_comm, List.filter_eq_self]
      intro e he
      have := List.find?_eq_none.mp (Option.isNone_iff_eq_none.mp h) e he
      simpa using this
    · rw [if_neg h]
      rfl

/-- Claim C7, amended.  After a successful remove of a key, get, remove
and set on that key all fail with KeyNotFound and leave the collection
untouched: for the guarded variant always, for the open variant for
every key that does not name an inherited member of the class.  For a
member name such as toString the open variant's remove succeeds without
removing anything, after which get fails with the function-typed error
and set succeeds, as the counterexample shows. -/
theorem c7_amended :
    (∀ (g : GuardedMap) (k : String) (g1 : GuardedMap),
      GuardedMap.remove g k = MRes.ok g1 →
        GuardedMap.get g1 k = Except.error MapError.keyNotFound
        ∧ GuardedMap.remove g1 k = MRes.err MapError.keyNotFound g1
        ∧ ∀ v, GuardedMap.set g1 k v = MRes.err MapError.keyNotFound g1)
    ∧ (∀ (m : Map) (k : String) (m1 : Map),
      protoNames.contains k = false → Map.remove m k = MRes.ok m1 →
        Map.get m1 k = Except.error MapError.keyNotFound
        ∧ Map.remove m1 k = MRes.err MapError.keyNotFound m1
        ∧ ∀ v, Map.set m1 k v = MRes.err MapError.keyNotFound m1) := by
  constructor
  · intro g k g1 h
    unfold GuardedMap.remove at h
    by_cases hc : (g.elements.find? (fun e => e.key == k)).isNone
    · rw [if_pos hc] at h
      cases h
    · rw [if_neg hc] at h
      have hg1 : g1 = ⟨g.elements.filter (fun e => !(e.key == k))⟩ := by
        cases h; rfl
      have hfind : (g1.elements.find? (fun e => e.key == k)) = none := by
        rw [hg1]
        exact find?_filter_not
      refine ⟨?_, ?_, fun v => ?_⟩
      · unfold GuardedMap.get
        rw [hfind]
      · unfold GuardedMap.remove
        rw [hfind]
        simp
      · unfold GuardedMap.set
        rw [hfind]
        simp
  · intro m k m1 hpr h
    unfold Map.remove at h
    by_cases hc : (m.getProp k).truthy
    · rw [if_neg (by simp [hc])] at h
      have hm1 : m1 = ⟨m.props.filter (fun kv => !(kv.1 == k))⟩ := by
        cases h; rfl
      have hget : Map.getProp m1 k = JSVal.undefined := by
        unfold Map.getProp
        rw [hm1]
        show (match (m.props.filter (fun kv => !(kv.1 == k))).lookup k with
          | some v => v
          | none =>
            if protoNames.contains k then JSVal.func (protoNames.indexOf k)
            else JSVal.undefined) = JSVal.undefined
        rw [lookup_filter_not, hpr]
        simp
      refine ⟨?_, ?_, fun v => ?_⟩
      · unfold Map.get
        rw [hget]
        simp [JSVal.truthy]
      · unfold Map.remove
        rw [hget]
        simp [JSVal.truthy]
      · unfold Map.set
        rw [hget]
        simp [JSVal.truthy]
    · rw [if_pos (by simp [hc])] at h
      cases h

/-- Witness for C7 at concrete inputs: after removing the only entry a
from either variant, get on a fails with KeyNotFound and set on a fails
with KeyNotFound leaving the empty state untouched. -/
theorem c7_witness :
    GuardedMap.get (⟨[]⟩ : GuardedMap) "a" = Except.error MapError.keyNotFound
    ∧ Map.set (⟨[]⟩ : Map) "a" (JSVal.num 9)
      = MRes.err MapError.keyNotFound ⟨[]⟩ :=
  ⟨(c7_amended.1 ⟨[⟨"a", JSVal.num 1⟩]⟩ "a" ⟨[]⟩ rfl).1,
   (c7_amended.2 ⟨[("a", JSVal.num 1)]⟩ "a" ⟨[]⟩ (by decide) rfl).2.2 (JSVal.num 9)⟩

/-- Counterexample for C7 as stated: on the open variant the key
toString is removed successfully (the delete resolves to the inherited
method and removes nothing), yet afterwards set on toString succeeds
instead of failing with KeyNotFound, and get fails with the
function-typed error rather than KeyNotFound. -/
theorem c7_counterexample :
    Map.remove ⟨[]⟩ "toString" = MRes.ok ⟨[]⟩
    ∧ Map.set ⟨[]⟩ "toString" (JSVal.num 1)
      = MRes.ok ⟨[("toString", JSVal.num 1)]⟩
    ∧ Map.get ⟨[]⟩ "toString" = Except.error MapError.typeMismatch :=
  ⟨rfl, rfl, rfl⟩

/-! ## Round-trip lemmas for C8 -/

theorem map_addAll_fresh (l : List GuardedMapElement) :
    ∀ (m : Map),
      (∀ e ∈ l, m.props.lookup e.key = none) →
      (∀ e ∈ l, protoNames.contains e.key = false) →
      (l.map (fun e => e.key)).Nodup →
      Map.addAll m (l.map (fun e => (e.key, e.value)))
        = Except.ok ⟨m.props ++ l.map (fun e => (e.key, e.value))⟩ := by
  induction l with
  | nil =>
    intro m _ _ _
    obtain ⟨props⟩ := m
    simp [Map.addAll]
  | cons e rest ih =>
    intro m h1 h2 h3
    have hlk : m.props.lookup e.key = none := h1 e (List.mem_cons_self e rest)
    have hpr : protoNames.contains e.key = false := h2 e (List.mem_cons_self e rest)
    have hgp : Map.getProp m e.key = JSVal.undefined := by
      unfold Map.getProp
      rw [hlk, hpr]
      simp
    have hfresh : ∀ kv ∈ m.props, kv.1 ≠ e.key := lookup_none_iff_forall.mp hlk
    have hany : m.props.any (fun kv => kv.1 == e.key) = false :=
      any_key_eq_false_iff.mpr hfresh
    have hadd : Map.add m e.key e.value = .ok ⟨m.props ++ [(e.key, e.value)]⟩ := by
      unfold Map.add
      rw [hgp]
      unfold setOwn
      rw [hany]
      simp [JSVal.truthy]
    have hnotin : e.key ∉ rest.map (fun e => e.key) := (List.nodup_cons.mp h3).1
    have h1' : ∀ e2 ∈ rest, (m.props ++ [(e.key, e.value)]).lookup e2.key = none := by
      intro e2 he2
      rw [lookup_none_iff_forall]
      intro kv hkv
      rcases List.mem_append.mp hkv with hin | hin
      · exact lookup_none_iff_forall.mp (h1 e2 (List.mem_cons_of_mem e he2)) kv hin
      · have hkv1 : kv = (e.key, e.value) := List.mem_singleton.mp hin
        subst hkv1
        intro hkeq
        have hk : e.key = e2.key := hkeq
        have hmem3 : e2.key ∈ rest.map (fun e => e.key) :=
          List.mem_map_of_mem (fun e => e.key) he2
        rw [← hk] at hmem3
        exact hnotin hmem3
    have h2' : ∀ e2 ∈ rest, protoNames.contains e2.key = false :=
      fun e2 he2 => h2 e2 (List.mem_cons_of_mem e he2)
    have h3' : (rest.map (fun e => e.key)).Nodup := (List.nodup_cons.mp h3).2
    show Map.addAll m ((e.key, e.value) :: rest.map (fun e => (e.key, e.value)))
      = Except.ok ⟨m.props ++ (e.key, e.value) :: rest.map (fun e => (e.key, e.value))⟩
    simp only [Map.addAll]
    rw [hadd]
    show Map.addAll ⟨m.props ++ [(e.key, e.value)]⟩ (rest.map (fun e => (e.key, e.value)))
      = Except.ok ⟨m.props ++ (e.key, e.value) :: rest.map (fun e => (e.key, e.value))⟩
    rw [ih _ h1' h2' h3']
    simp

theorem guarded_addAll_fresh (l : List (String × JSVal)) :
    ∀ (g : GuardedMap),
      (∀ kv ∈ l, GuardedMap.includesKey g kv.1 = false) →
      (l.map (fun kv => kv.1)).Nodup →
      GuardedMap.addAll g l
        = Except.ok ⟨g.elements ++ l.map (fun kv => (⟨kv.1, kv.2⟩ : GuardedMapElement))⟩ := by
  induction l with
  | nil =>
    intro g _ _
    obtain ⟨es⟩ := g
    simp [GuardedMap.addAll]
  | cons kv rest ih =>
    intro g h1 h2
    have hinc : GuardedMap.includesKey g kv.1 = false := h1 kv (List.mem_cons_self kv rest)
    have hadd : GuardedMap.add g kv.1 kv.2 = .ok ⟨g.elements ++ [⟨kv.1, kv.2⟩]⟩ := by
      unfold GuardedMap.add
      rw [show g.elements.any (fun e => e.key == kv.1) = false from hinc]
      simp
    have hnotin : kv.1 ∉ rest.map (fun kv => kv.1) := (List.nodup_cons.mp h2).1
    have h1' : ∀ kv2 ∈ rest,
        GuardedMap.includesKey ⟨g.elements ++ [⟨kv.1, kv.2⟩]⟩ kv2.1 = false := by
      intro kv2 hkv2
      show (g.elements ++ [(⟨kv.1, kv.2⟩ : GuardedMapElement)]).any
        (fun e => e.key == kv2.1) = false
      rw [List.any_append]
      have ha : g.elements.any (fun e => e.key == kv2.1) = false :=
        h1 kv2 (List.mem_cons_of_mem kv hkv2)
      have hb : (kv.1 == kv2.1) = false := by
        rw [beq_eq_false_iff_ne]
        intro hkeq
        exact hnotin (hkeq ▸ List.mem_map_of_mem (fun kv => kv.1) hkv2)
      simp [ha, hb]
    have h2' : (rest.map (fun kv => kv.1)).Nodup := (List.nodup_cons.mp h2).2
    show GuardedMap.addAll g (kv :: rest)
      = Except.ok ⟨g.elements
          ++ (⟨kv.1, kv.2⟩ : GuardedMapElement) :: rest.map (fun kv => (⟨kv.1, kv.2⟩ : GuardedMapElement))⟩
    simp only [GuardedMap.addAll]
    rw [hadd]
    show GuardedMap.addAll ⟨g.elements ++ [⟨kv.1, kv.2⟩]⟩ rest
      = Except.ok ⟨g.elements
          ++ (⟨kv.1, kv.2⟩ : GuardedMapElement) :: rest.map (fun kv => (⟨kv.1, kv.2⟩ : GuardedMapElement))⟩
    rw [ih _ h1' h2']
    simp

/-- Claim C8, amended.  For every guarded map whose keys are pairwise
distinct and do not collide with the open variant's inherited member
names, and whose values are element data (not functions), the round
trip toMap followed by toGuardedMap rebuilds exactly the original
collection, and the rebuilt collection is equals-true to the original.
A key such as toString makes toMap itself throw KeyConflict, as the
counterexample shows, so the collision restriction is necessary. -/
theorem c8_amended (g : GuardedMap)
    (hnd : (g.elements.map (fun e => e.key)).Nodup)
    (hpr : ∀ e ∈ g.elements, protoNames.contains e.key = false)
    (hfn : ∀ e ∈ g.elements, e.value.isFunc = false) :
    (GuardedMap.toMap g).bind Map.toGuardedMap = Except.ok g
    ∧ GuardedMap.equals g (g.elements.map (fun e => (e.key, e.value))) none
      = Except.ok true := by
  have hsize : GuardedMap.size g = (g.elements.map (fun e => (e.key, e.value))).length := by
    unfold GuardedMap.size
    rw [List.length_map]
  constructor
  · rcases hne : g.elements with _ | ⟨e0, rest0⟩
    · have hg : g = ⟨[]⟩ := by cases g; cases hne; rfl
      subst hg
      rfl
    · have htm : GuardedMap.toMap g
          = Except.ok ⟨g.elements.map (fun e => (e.key, e.value))⟩ := by
        unfold GuardedMap.toMap
        rw [if_neg (by unfold GuardedMap.size; rw [hne]; simp)]
        have := map_addAll_fresh g.elements ⟨[]⟩
          (by intro e _; rfl) hpr hnd
        rw [this]
        simp
      rw [htm]
      show Map.toGuardedMap ⟨g.elements.map (fun e => (e.key, e.value))⟩ = Except.ok g
      have hentries : Map.entries ⟨g.elements.map (fun e => (e.key, e.value))⟩
          = g.elements.map (fun e => (e.key, e.value)) := by
        unfold Map.entries
        rw [List.filter_eq_self]
        intro kv hkv
        obtain ⟨e, he, hekv⟩ := List.mem_map.mp hkv
        have : kv.2 = e.value := by rw [← hekv]
        rw [this]
        simp [hfn e he]
      unfold Map.toGuardedMap
      rw [hentries]
      rw [if_neg (by unfold Map.size; rw [hentries, List.length_map, hne]; simp)]
      have hfst : ((g.elements.map (fun e => (e.key, e.value))).map (fun kv => kv.1)).Nodup := by
        rw [List.map_map]
        exact hnd
      have := guarded_addAll_fresh (g.elements.map (fun e => (e.key, e.value))) ⟨[]⟩
        (by intro kv _; rfl) hfst
      rw [this]
      rw [List.map_map]
      show Except.ok (⟨[] ++ g.elements.map (fun e => (⟨e.key, e.value⟩ : GuardedMapElement))⟩ : GuardedMap)
        = Except.ok g
      rw [List.nil_append, map_mk_eta]
  · unfold GuardedMap.equals
    rw [if_neg (by rw [hsize]; simp)]
    rw [equalsLoop_none]
    rfl

/-- Witness for C8 at a concrete input: the two-entry guarded map with
keys a and b (one value being the falsy empty string) survives the
round trip through the open variant unchanged and is equals-true to the
result. -/
theorem c8_witness :
    (GuardedMap.toMap ⟨[⟨"a", JSVal.num 1⟩, ⟨"b", JSVal.str ""⟩]⟩).bind Map.toGuardedMap
      = Except.ok ⟨[⟨"a", JSVal.num 1⟩, ⟨"b", JSVal.str ""⟩]⟩ :=
  (c8_amended ⟨[⟨"a", JSVal.num 1⟩, ⟨"b", JSVal.str ""⟩]⟩ (by decide) (by decide)
    (by decide)).1

/-- Counterexample for C8 as stated: the guarded map holding the single
entry toString cannot be round-tripped at all, because toMap re-adds
the entries through the open variant's add, which reads this[toString],
hits the inherited method and throws KeyConflict. -/
theorem c8_counterexample :
    (GuardedMap.toMap ⟨[⟨"toString", JSVal.num 1⟩]⟩).bind Map.toGuardedMap
      = Except.error MapError.keyConflict := rfl

end Ts
